import Mathlib

/-!
Verification of the truffle front end (src/parser.rs, src/utils.rs) by a
shallow embedding in Lean.

Conventions of the embedding:
* Rust panics and failed `assert!`/`unwrap` calls are modelled as
  `Except.error` values of the `PError` type; each distinct panic site has
  its own error constructor so that theorems can speak about which failure
  fires.
* Loops whose termination is not structural are given an explicit fuel
  parameter; the fuel-exhaustion outcome is the distinct error
  `PError.outOfFuel`.  Wrappers instantiate the fuel with a bound
  (`length + 1`) that is never reached by the terminating recursions, so
  the definitions stay executable by `rfl`/`decide`.  For the one loop in
  the source that genuinely may not terminate (`generate_code_block`'s
  statement loop), theorems quantify over all fuel values.
* Rust's `HashMap<String, DataType>` is modelled as an association list in
  which `hmInsert` replaces any previous binding of the key, preserving
  the map semantics (each key bound at most once, lookup by key).
* `Vec` scope stacks store the innermost scope (Rust's last element) at
  the head of the Lean list, so Rust's `iter().rev()` is plain
  left-to-right traversal here.
-/

namespace Truffle

/-- Alias for the built-in string type, usable inside namespaces where a
constructor named `String` shadows it. -/
abbrev Text := String

/-- Modelled from the spec: the token classification set of the lexer
collaborator (`src/lexer.rs` is not part of the sources); this is the
closed set listed in spec section 6 and used throughout `parser.rs`. -/
inductive TokenType where
  | Keyword
  | FunctionName
  | VariableName
  | DataType
  | OpenParen
  | CloseParen
  | OpenCurlyBrace
  | CloseCurlyBrace
  | Comma
  | SemiColon
  | NewLine
  | AssignmentOperator
  | ArithmeticOperator
  | ComparisonOperator
  | IntegerLiteral
  | FloatLiteral
  | BooleanLiteral
  | StringLiteral
deriving DecidableEq, Repr

/-- Modelled from the spec: a classified token from the lexer collaborator,
a classification plus its literal text (`Token { token_type, value }`). -/
structure Token where
  token_type : TokenType
  value : String
deriving DecidableEq, Repr

/-- `enum DataType` of parser.rs: the recursive type descriptor. -/
inductive DataType where
  | I64
  | U64
  | F64
  | U8
  | Bool
  | Char
  | String
  | Vec (inner : DataType)
deriving DecidableEq, Repr

/-- Error kinds: one constructor per panic / assertion / `Err` site of the
source, plus `outOfFuel` for the fuel instrumentation of loops. -/
inductive PError where
  | noDataTypeFound (name : String)
  | faultyArithmeticOperator (s : String)
  | faultyComparisonOperator (s : String)
  | incorrectTokenForOperationTypeNew
  | lastTokenNotValue
  | noOperationFound
  | undefinedVariable (name : String)
  | valueTokenError
  | assertFail
  | unwrapFail
  | badStatement
  | badFunctionStart
  | indexOutOfBounds
  | outOfFuel
deriving DecidableEq, Repr

/-- Splits a character list at the first occurrence of the open-bracket
character, dropping it: the model of Rust's `dt.split_once("[")`. -/
def splitOnceLB : List Char → Option (List Char × List Char)
  | [] => none
  | c :: rest =>
    if c = '[' then some ([], rest)
    else
      match splitOnceLB rest with
      | none => none
      | some (a, b) => some (c :: a, b)

/-- Wraps a type in `n` levels of `DataType.Vec`. -/
def wrapVec (d : DataType) : Nat → DataType
  | 0 => d
  | n + 1 => DataType.Vec (wrapVec d n)

/-- `DataType::new` of parser.rs, on the character list of the type text.
The source recurses on the text before the first open bracket; that prefix
is strictly shorter than the input, so fuel `length + 1` (supplied by
`dataTypeNew`) is never exhausted.  The source writes the contains-check as
`if !dt.contains('[') { panic!(...) }` before splitting; here the membership
test selects between the same two continuations.  The Rust loop
`for i in 0..=(brackets.len()/2)` performs `brackets.len()/2 + 1`
wrappings. -/
def dataTypeNewGo : Nat → List Char → Except PError DataType
  | 0, _ => .error .outOfFuel
  | fuel + 1, dt =>
    if dt = "int".data then .ok .I64
    else if dt = "uint".data then .ok .U64
    else if dt = "float".data then .ok .F64
    else if dt = "bool".data then .ok .Bool
    else if dt = "char".data then .ok .Char
    else if dt = "byte".data then .ok .U8
    else if dt = "string".data then .ok .String
    else if '[' ∈ dt then
      match splitOnceLB dt with
      | none => .error .unwrapFail
      | some (ty, brackets) => do
          let base ← dataTypeNewGo fuel ty
          pure (wrapVec base (brackets.length / 2 + 1))
    else .error (.noDataTypeFound (String.mk dt))

/-- `DataType::new` on a character list, with adequate fuel. -/
def dataTypeNew (dt : List Char) : Except PError DataType :=
  dataTypeNewGo (dt.length + 1) dt

/-- `DataType::new` of parser.rs on the token text. -/
def DataType.new (dt : Text) : Except PError DataType :=
  dataTypeNew dt.data

/-- `DataType::is_numeric` of parser.rs: membership in the array
`[I64, U64, F64, U8]`. -/
def DataType.is_numeric (t : DataType) :=
  decide (t ∈ [DataType.I64, DataType.U64, DataType.F64, DataType.U8])

/-- `enum OperationType` of parser.rs. -/
inductive OperationType where
  | Add
  | Subtract
  | Div
  | Mult
  | Mod
  | GreaterThan
  | LessThan
  | GreaterThanOrEq
  | LessThanOrEq
  | Eq
  | NotEq
deriving DecidableEq, Repr

/-- `OperationType::new` of parser.rs.  The source returns
`anyhow::Result`; the three `Err` outcomes get their own `PError`
constructors. -/
def OperationType.new (token : Token) : Except PError OperationType :=
  match token.token_type with
  | .ArithmeticOperator =>
    match token.value with
    | "+" => .ok .Add
    | "-" => .ok .Subtract
    | "*" => .ok .Mult
    | "/" => .ok .Div
    | "%" => .ok .Mod
    | _ => .error (.faultyArithmeticOperator token.value)
  | .ComparisonOperator =>
    match token.value with
    | ">" => .ok .GreaterThan
    | "<" => .ok .LessThan
    | ">=" => .ok .GreaterThanOrEq
    | "<=" => .ok .LessThanOrEq
    | "==" => .ok .Eq
    | "!=" => .ok .NotEq
    | _ => .error (.faultyComparisonOperator token.value)
  | _ => .error .incorrectTokenForOperationTypeNew

/-- `OperationType::get_priority` of parser.rs. -/
def OperationType.get_priority (op : OperationType) : Nat :=
  if op ∈ [OperationType.Mult, OperationType.Div, OperationType.Mod] then 10
  else if op ∈ [OperationType.Add, OperationType.Subtract] then 9
  else 8

/-- `OperationType::is_arithmetic` of parser.rs. -/
def OperationType.is_arithmetic (op : OperationType) : Bool :=
  decide (op ∈ [OperationType.Add, OperationType.Subtract, OperationType.Div,
    OperationType.Mult, OperationType.Mod])

/-- `OperationType::is_comparison` of parser.rs. -/
def OperationType.is_comparison (op : OperationType) : Bool :=
  decide (op ∈ [OperationType.GreaterThan, OperationType.LessThan,
    OperationType.GreaterThanOrEq, OperationType.LessThanOrEq,
    OperationType.Eq, OperationType.NotEq])

/-- `OperationType::as_str` of parser.rs. -/
def OperationType.as_str (op : OperationType) : String :=
  match op with
  | .Add => "+"
  | .Subtract => "-"
  | .Div => "/"
  | .Mult => "*"
  | .Mod => "%"
  | .GreaterThan => ">"
  | .LessThan => "<"
  | .GreaterThanOrEq => ">="
  | .LessThanOrEq => "<="
  | .Eq => "=="
  | .NotEq => "!="

/-- The expression-value abstraction of parser.rs.  The source realizes it
as the trait `Value` with the three implementing structs `Literal`,
`Variable` and `Operation` held behind `Box<dyn Value>`; the closed set of
implementors becomes one tagged union here (as spec section 9 itself
recommends).  `operation` carries `opd_1`, `opd_2`, `op`, `ret_type`. -/
inductive Value where
  | literal (value : Text) (dtype : DataType)
  | varRef (name : Text) (dtype : DataType)
  | operation (opd_1 : Value) (opd_2 : Value) (op : OperationType) (ret_type : DataType)
deriving DecidableEq, Repr

/-- The trait method `dtype` implemented by each `Value` variant. -/
def Value.dtype : Value → DataType
  | .literal _ d => d
  | .varRef _ d => d
  | .operation _ _ _ rt => rt

/-- The trait method `value` (textual rendering) of each `Value` variant. -/
def Value.value : Value → Text
  | .literal v _ => v
  | .varRef n _ => n
  | .operation o1 o2 op _ => "(" ++ o1.value ++ " " ++ op.as_str ++ " " ++ o2.value ++ ")"

/-- `struct Variable` of parser.rs. -/
structure Variable where
  name : Text
  dtype : DataType
deriving DecidableEq, Repr

/-- `struct AssignmentStatement` of parser.rs: destination variable plus
owned source value. -/
structure AssignmentStatement where
  dst : Variable
  src : Value
deriving DecidableEq, Repr

/-- `enum AstNode` of parser.rs.  `Function` and `CodeBlock` are recursive
through `AstNode`, so their payloads appear inline here and the standalone
`Function`/`CodeBlock` records are declared just below. -/
inductive AstNode where
  | variableNode (v : Variable)
  | functionNode (name : Text) (parameters : List Variable) (body : List AstNode)
  | codeBlock (statements : List AstNode)
  | assignmentStatement (a : AssignmentStatement)
  | operationNode (o : Value)

/-- `struct CodeBlock` of parser.rs. -/
structure CodeBlock where
  statements : List AstNode

/-- `struct Function` of parser.rs. -/
structure Function where
  name : Text
  parameters : List Variable
  body : CodeBlock

/-- `Operation::gen_return_t` of parser.rs, as a function of the operator
and the two operand types (`self.opd_1.dtype()`, `self.opd_2.dtype()`).
The source mutates `self.ret_type`; the two `assert!` calls and the
`assert_eq!` become `.error .assertFail`. -/
def gen_return_t (op : OperationType) (t1 t2 : DataType) : Except PError DataType :=
  if op.is_comparison then .ok .Bool
  else if t1 = .F64 ∨ t2 = .F64 then
    if t1.is_numeric then
      if t2.is_numeric then .ok .F64
      else .error .assertFail
    else .error .assertFail
  else if t1 = t2 then .ok t1
  else .error .assertFail

/-- A single `HashMap<String, DataType>` (one lexical scope), modelled as
an association list whose keys are unique. -/
abbrev Scope := List (Text × DataType)

/-- `HashMap::insert`: replaces any existing binding of the key. -/
def hmInsert (m : Scope) (k : Text) (v : DataType) : Scope :=
  (k, v) :: m.filter (fun p => p.1 ≠ k)

/-- `HashMap::get`. -/
def hmGet : Scope → Text → Option DataType
  | [], _ => none
  | (k, v) :: rest, key => if k = key then some v else hmGet rest key

/-- `struct VarLst` of utils.rs.  The innermost scope (Rust's last vector
element) is the head of the list. -/
structure VarLst where
  vars : List Scope

/-- `VarLst::new`: one fresh scope. -/
def VarLst.new : VarLst := ⟨[[]]⟩

/-- `VarLst::insert`: inserts into the innermost scope.  The source's
`self.vars.last_mut().unwrap()` panics when no scope exists, modelled as
`none`. -/
def VarLst.insert (l : VarLst) (var : Text) (dtype : DataType) : Option VarLst :=
  match l.vars with
  | [] => none
  | s :: rest => some ⟨hmInsert s var dtype :: rest⟩

/-- The scope-traversal loop of `VarLst::get`: Rust's `iter().rev()` is
head-to-tail here. -/
def varLstGet : List Scope → Text → Option DataType
  | [], _ => none
  | s :: rest, var =>
    match hmGet s var with
    | some d => some d
    | none => varLstGet rest var

/-- `VarLst::get` of utils.rs. -/
def VarLst.get (l : VarLst) (var : Text) : Option DataType :=
  varLstGet l.vars var

/-- `VarLst::push_scope` of utils.rs. -/
def VarLst.push_scope (l : VarLst) : VarLst := ⟨[] :: l.vars⟩

/-- `VarLst::pop_scope` of utils.rs: `Vec::pop` is a no-op on an empty
vector and removes the innermost scope otherwise. -/
def VarLst.pop_scope (l : VarLst) : VarLst := ⟨l.vars.tail⟩

/-- `struct DeclaredObjects<T>` of utils.rs; innermost scope at the head. -/
structure DeclaredObjects (T : Type) where
  objects : List (List T)

/-- `DeclaredObjects::new`: one fresh scope. -/
def DeclaredObjects.new {T : Type} : DeclaredObjects T := ⟨[[]]⟩

/-- `DeclaredObjects::push`: appends to the innermost scope; the source's
`last_mut().unwrap()` panics when no scope exists, modelled as `none`. -/
def DeclaredObjects.push {T : Type} (d : DeclaredObjects T) (object : T) :
    Option (DeclaredObjects T) :=
  match d.objects with
  | [] => none
  | s :: rest => some ⟨(s ++ [object]) :: rest⟩

/-- The scope-traversal loop of `DeclaredObjects::contains`. -/
def declaredContains {T : Type} [DecidableEq T] : List (List T) → T → Bool
  | [], _ => false
  | s :: rest, o => if o ∈ s then true else declaredContains rest o

/-- `DeclaredObjects::contains` of utils.rs. -/
def DeclaredObjects.contains {T : Type} [DecidableEq T] (d : DeclaredObjects T) (o : T) :=
  declaredContains d.objects o

/-- `DeclaredObjects::push_scope` of utils.rs. -/
def DeclaredObjects.push_scope {T : Type} (d : DeclaredObjects T) : DeclaredObjects T :=
  ⟨[] :: d.objects⟩

/-- `DeclaredObjects::pop_scope` of utils.rs. -/
def DeclaredObjects.pop_scope {T : Type} (d : DeclaredObjects T) : DeclaredObjects T :=
  ⟨d.objects.tail⟩

/-- The `operators` array of `Operation::exists_inline`. -/
def operatorTokenTypes : List TokenType :=
  [.ArithmeticOperator, .ComparisonOperator]

/-- The `end_tokens` array shared by `Operation::exists_inline` and
`Operation::extract_operation`. -/
def endTokens : List TokenType :=
  [.NewLine, .OpenCurlyBrace, .CloseCurlyBrace, .SemiColon, .Comma]

/-- The `value_tokens` array of `Operation::extract_operation_h`. -/
def valueTokens : List TokenType :=
  [.FloatLiteral, .StringLiteral, .BooleanLiteral, .IntegerLiteral, .VariableName]

/-- `Operation::exists_inline` of parser.rs. -/
def exists_inline : List Token → Bool
  | [] => false
  | t :: rest =>
    if t.token_type ∈ operatorTokenTypes then true
    else if t.token_type ∈ endTokens then false
    else exists_inline rest

/-- The length loop of `Operation::extract_operation`: tokens up to
(excluding) the first end token. -/
def spanLen : List Token → Nat
  | [] => 0
  | t :: rest => if t.token_type ∈ endTokens then 0 else spanLen rest + 1

/-- The priority of a token under the scan of
`Operation::extract_operation_h`: the operator's priority when
`OperationType::new` succeeds, `0` (never an update) otherwise. -/
def tokPrio (t : Token) : Nat :=
  match OperationType.new t with
  | .ok op => op.get_priority
  | .error _ => 0

/-- The operator scan of `Operation::extract_operation_h`: walks the span
with current index `i`, accumulating `op_idx`/`op_priority`, updating both
exactly when a token parses as an operator with strictly greater priority
than the accumulator. -/
def findSplitGo : List Token → Nat → Nat → Nat → Nat × Nat
  | [], _, opIdx, opPriority => (opIdx, opPriority)
  | t :: rest, i, opIdx, opPriority =>
    match OperationType.new t with
    | .ok op =>
      if op.get_priority > opPriority then findSplitGo rest (i + 1) i op.get_priority
      else findSplitGo rest (i + 1) opIdx opPriority
    | .error _ => findSplitGo rest (i + 1) opIdx opPriority

/-- The scan started as in the source: `op_idx = 0`, `op_priority = 0`. -/
def findSplit (tokens : List Token) : Nat × Nat :=
  findSplitGo tokens 0 0 0

/-- The single-value-token arm of `AstNode::generate_expression` (the
`match s[0].token_type` under `!exists_inline`).  `extract_operation_h`'s
base case reaches this same code by calling `generate_expression` on the
one-token slice; `generate_expression_one_value` below proves the two
entry paths agree. -/
def generateValueToken (t : Token) (variable_lst : Scope) : Except PError Value :=
  match t.token_type with
  | .FloatLiteral => .ok (.literal t.value .F64)
  | .IntegerLiteral => .ok (.literal t.value .I64)
  | .BooleanLiteral => .ok (.literal t.value .Bool)
  | .StringLiteral => .ok (.literal t.value (.Vec .U8))
  | .VariableName =>
    match hmGet variable_lst t.value with
    | some ty => .ok (.varRef t.value ty)
    | none => .error (.undefinedVariable t.value)
  | _ => .error .valueTokenError

/-- `Operation::extract_operation_h` of parser.rs.  The recursion is on
the two sub-spans strictly inside the span, so fuel `length + 1` (supplied
by `extract_operation_h`) is never exhausted.  The split index is the
result of the operator scan; a final index of `0` is the source's
`panic!(... no operation found ...)`.  The `Operation` struct literal
evaluates `opd_1`, then `opd_2`, then `OperationType::new(..).unwrap()`,
then runs `gen_return_t`; failures propagate in that order. -/
def extract_operation_h_go : Nat → List Token → Scope → Except PError Value
  | 0, _, _ => .error .outOfFuel
  | fuel + 1, tokens, variable_lst =>
    if tokens.length = 1 then
      match tokens[0]? with
      | none => .error .indexOutOfBounds
      | some t =>
        if t.token_type ∈ valueTokens then generateValueToken t variable_lst
        else .error .lastTokenNotValue
    else
      match findSplit tokens with
      | (opIdx, _) =>
        if opIdx = 0 then .error .noOperationFound
        else
          match tokens[opIdx]? with
          | none => .error .indexOutOfBounds
          | some tOp => do
            let opd_1 ← extract_operation_h_go fuel (tokens.take opIdx) variable_lst
            let opd_2 ← extract_operation_h_go fuel (tokens.drop (opIdx + 1)) variable_lst
            let op ← OperationType.new tOp
            let ret_type ← gen_return_t op opd_1.dtype opd_2.dtype
            pure (Value.operation opd_1 opd_2 op ret_type)

/-- `Operation::extract_operation_h` with adequate fuel. -/
def extract_operation_h (tokens : List Token) (variable_lst : Scope) : Except PError Value :=
  extract_operation_h_go (tokens.length + 1) tokens variable_lst

/-- `Operation::extract_operation` of parser.rs: measures the span, builds
the value from the trimmed span, returns it with the length.  (The unused
placeholder `Operation` struct at the top of the source function has no
observable effect and is omitted.) -/
def extract_operation (tokens : List Token) (variable_lst : Scope) :
    Except PError (Value × Nat) :=
  let length := spanLen tokens
  (extract_operation_h (tokens.take length) variable_lst).map (fun v => (v, length))

/-- `AstNode::generate_expression` of parser.rs. -/
def generate_expression (s : List Token) (variable_lst : Scope) :
    Except PError (Value × Nat) :=
  if exists_inline s = false then
    match s[0]? with
    | none => .error .indexOutOfBounds
    | some t => (generateValueToken t variable_lst).map (fun v => (v, 1))
  else extract_operation s variable_lst

/-- The statement loop of `AstNode::generate_code_block`.  This loop can
genuinely fail to terminate (the `_ => {}` match arm advances nothing), so
the fuel is a real parameter here and theorems quantify over it.  In the
declaration arm the source checks `s[i+1].token_type == VariableName`
before touching `s[i+2]` (short-circuit `&&`); a failed shape check is the
source's `panic!("This probably shouldn't happen")`, here
`.error .badStatement`.  The declared name and type are inserted into
`variable_lst` before the initializer expression is parsed. -/
def generate_code_block_go :
    Nat → List Token → List AstNode → Scope → Nat → Except PError (List AstNode × Nat)
  | 0, _, _, _, _ => .error .outOfFuel
  | fuel + 1, s, block, variable_lst, i =>
    match s[i]? with
    | none => .error .indexOutOfBounds
    | some t =>
      match t.token_type with
      | .NewLine => generate_code_block_go fuel s block variable_lst (i + 1)
      | .DataType =>
        match s[i + 1]? with
        | none => .error .indexOutOfBounds
        | some t1 =>
          if t1.token_type = .VariableName then
            match s[i + 2]? with
            | none => .error .indexOutOfBounds
            | some t2 =>
              if t2.token_type = .AssignmentOperator then do
                let var_type ← DataType.new t.value
                let var : Variable := ⟨t1.value, var_type⟩
                let variable_lst2 := hmInsert variable_lst t1.value var_type
                let (val, num_tokens) ← generate_expression (s.drop (i + 3)) variable_lst2
                generate_code_block_go fuel s
                  (block ++ [AstNode.assignmentStatement ⟨var, val⟩])
                  variable_lst2 (i + 3 + num_tokens)
              else .error .badStatement
          else .error .badStatement
      | .CloseCurlyBrace => .ok (block, i)
      | _ => generate_code_block_go fuel s block variable_lst i

/-- `AstNode::generate_code_block` of parser.rs: asserts the open brace,
starts with an empty statement list and a fresh `variable_lst`, runs the
loop from index 1. -/
def generate_code_block (s : List Token) (fuel : Nat) : Except PError (CodeBlock × Nat) :=
  match s[0]? with
  | none => .error .indexOutOfBounds
  | some t =>
    if t.token_type = .OpenCurlyBrace then
      (generate_code_block_go fuel s [] [] 1).map (fun p => (⟨p.1⟩, p.2))
    else .error .assertFail

/-- The parameter loop of `AstNode::generate_function` (`while s[i] !=
CloseParen`).  `i` strictly increases each iteration and every iteration
indexes `s[i]`, so fuel `s.length + 1` (supplied by the caller) is never
exhausted.  The order of checks follows the source: close-paren exit,
comma skip, `assert_eq!(DataType)`, `DataType::new`, `assert_eq!(s[i+1],
VariableName)`, push parameter, advance by 2. -/
def generate_function_params_go :
    Nat → List Token → Nat → List Variable → Except PError (List Variable × Nat)
  | 0, _, _, _ => .error .outOfFuel
  | fuel + 1, s, i, parameters =>
    match s[i]? with
    | none => .error .indexOutOfBounds
    | some t =>
      if t.token_type = .CloseParen then .ok (parameters, i)
      else if t.token_type = .Comma then generate_function_params_go fuel s (i + 1) parameters
      else if t.token_type = .DataType then do
        let var_type ← DataType.new t.value
        match s[i + 1]? with
        | none => .error .indexOutOfBounds
        | some t1 =>
          if t1.token_type = .VariableName then
            generate_function_params_go fuel s (i + 2) (parameters ++ [⟨t1.value, var_type⟩])
          else .error .assertFail
      else .error .assertFail

/-- `AstNode::generate_function` of parser.rs: `fn` keyword, function
name, open paren, parameter loop, open curly brace, body via
`generate_code_block` (whose returned token count is discarded, as in the
source).  The `fuel` is passed through to the code-block statement
loop. -/
def generate_function (s : List Token) (fuel : Nat) : Except PError Function :=
  match s[0]? with
  | none => .error .indexOutOfBounds
  | some t0 =>
    if t0.token_type = .Keyword ∧ t0.value = "fn" then
      match s[1]? with
      | none => .error .indexOutOfBounds
      | some t1 =>
        if t1.token_type = .FunctionName then
          match s[2]? with
          | none => .error .indexOutOfBounds
          | some t2 =>
            if t2.token_type = .OpenParen then do
              let (parameters, i) ← generate_function_params_go (s.length + 1) s 3 []
              match s[i + 1]? with
              | none => .error .indexOutOfBounds
              | some t3 =>
                if t3.token_type = .OpenCurlyBrace then do
                  let (body, _) ← generate_code_block (s.drop (i + 1)) fuel
                  pure ⟨t1.value, parameters, body⟩
                else .error .assertFail
            else .error .assertFail
        else .error .assertFail
    else .error .badFunctionStart

/-! Concrete token streams and expected results used by the claims. -/

/-- The token stream of `fn add ( int a , int b ) { int c = a + b }`,
classified in the lexer's token set. -/
def addStream : List Token :=
  [⟨.Keyword, "fn"⟩, ⟨.FunctionName, "add"⟩, ⟨.OpenParen, "("⟩,
   ⟨.DataType, "int"⟩, ⟨.VariableName, "a"⟩, ⟨.Comma, ","⟩,
   ⟨.DataType, "int"⟩, ⟨.VariableName, "b"⟩, ⟨.CloseParen, ")"⟩,
   ⟨.OpenCurlyBrace, "\x7b"⟩, ⟨.DataType, "int"⟩, ⟨.VariableName, "c"⟩,
   ⟨.AssignmentOperator, "="⟩, ⟨.VariableName, "a"⟩, ⟨.ArithmeticOperator, "+"⟩,
   ⟨.VariableName, "b"⟩, ⟨.CloseCurlyBrace, "\x7d"⟩]

/-- The flat expression span `2 + 3 * 4`. -/
def span234 : List Token :=
  [⟨.IntegerLiteral, "2"⟩, ⟨.ArithmeticOperator, "+"⟩, ⟨.IntegerLiteral, "3"⟩,
   ⟨.ArithmeticOperator, "*"⟩, ⟨.IntegerLiteral, "4"⟩]

/-- The tree the split rule builds for `2 + 3 * 4`: rooted at `*`, with
`(2 + 3)` as its left child — not the conventional-precedence tree. -/
def tree234 : Value :=
  .operation
    (.operation (.literal ("2") .I64) (.literal ("3") .I64) .Add .I64)
    (.literal ("4") .I64) .Mult .I64

/-- A multi-token span whose only operator sits at index 0: `+ 2`. -/
def spanOpFirst : List Token :=
  [⟨.ArithmeticOperator, "+"⟩, ⟨.IntegerLiteral, "2"⟩]

/-- A multi-token span with no operator at all: `1 2`. -/
def spanNoOp : List Token :=
  [⟨.IntegerLiteral, "1"⟩, ⟨.IntegerLiteral, "2"⟩]

/-- An empty block followed by one more token: `{ }` then a newline. -/
def emptyBlockStream : List Token :=
  [⟨.OpenCurlyBrace, "\x7b"⟩, ⟨.CloseCurlyBrace, "\x7d"⟩, ⟨.NewLine, "\n"⟩]

/-- A minimal well-formed block, `{ }`. -/
def emptyBlockStream2 : List Token :=
  [⟨.OpenCurlyBrace, "\x7b"⟩, ⟨.CloseCurlyBrace, "\x7d"⟩]

/-- A block whose statement starts with a bare variable-name token:
`{ x }`.  Statement-start tokens other than newline, close-brace and
data-type hit the loop's silent default arm. -/
def bareNameBlockStream : List Token :=
  [⟨.OpenCurlyBrace, "\x7b"⟩, ⟨.VariableName, "x"⟩, ⟨.CloseCurlyBrace, "\x7d"⟩]

/-- A block whose statement starts with a data-type token not followed by
the declaration shape: `{ int x }`. -/
def badDeclBlockStream : List Token :=
  [⟨.OpenCurlyBrace, "\x7b"⟩, ⟨.DataType, "int"⟩, ⟨.VariableName, "x"⟩,
   ⟨.CloseCurlyBrace, "\x7d"⟩]

/-- A block that declares `x` twice in the same scope and then reads it:
`{ int x = 1 \n float x = 2.5 \n int z = x + x \n }`. -/
def redeclBlockStream : List Token :=
  [⟨.OpenCurlyBrace, "\x7b"⟩,
   ⟨.DataType, "int"⟩, ⟨.VariableName, "x"⟩, ⟨.AssignmentOperator, "="⟩,
   ⟨.IntegerLiteral, "1"⟩, ⟨.NewLine, "\n"⟩,
   ⟨.DataType, "float"⟩, ⟨.VariableName, "x"⟩, ⟨.AssignmentOperator, "="⟩,
   ⟨.FloatLiteral, "2.5"⟩, ⟨.NewLine, "\n"⟩,
   ⟨.DataType, "int"⟩, ⟨.VariableName, "z"⟩, ⟨.AssignmentOperator, "="⟩,
   ⟨.VariableName, "x"⟩, ⟨.ArithmeticOperator, "+"⟩, ⟨.VariableName, "x"⟩,
   ⟨.NewLine, "\n"⟩,
   ⟨.CloseCurlyBrace, "\x7d"⟩]

/-- The statements `redeclBlockStream` produces: the second declaration of
`x` silently replaces the first in the block scope, and the third
statement's initializer resolves `x` to the replacing type `F64`. -/
def redeclStatements : List AstNode :=
  [.assignmentStatement ⟨⟨("x"), .I64⟩, .literal ("1") .I64⟩,
   .assignmentStatement ⟨⟨("x"), .F64⟩, .literal ("2.5") .F64⟩,
   .assignmentStatement ⟨⟨("z"), .I64⟩,
     .operation (.varRef ("x") .F64) (.varRef ("x") .F64) .Add .F64⟩]

/-- The seven base type keywords of `DataType::new` with their scalar
descriptors, as character lists. -/
def baseTypePairs : List (List Char × DataType) :=
  [("int".data, .I64), ("uint".data, .U64), ("float".data, .F64),
   ("bool".data, .Bool), ("char".data, .Char), ("byte".data, .U8),
   ("string".data, .String)]

/-- `d` adjacent bracket pairs, as characters. -/
def bracketChars : Nat → List Char
  | 0 => []
  | d + 1 => '[' :: ']' :: bracketChars d

/-! Helper lemmas. -/

/-- Inserting a binding makes it the one `HashMap::get` finds. -/
theorem hmGet_hmInsert (m : Scope) (k : Text) (v : DataType) :
    hmGet (hmInsert m k v) k = some v := by
  simp [hmInsert, hmGet]

/-- Fidelity of the factored-out single-value-token arm: on a one-token
slice holding a value-class token, `generate_expression` (which
`extract_operation_h`'s base case calls in the source) produces exactly
`generateValueToken` paired with length 1. -/
theorem generate_expression_one_value (t : Token) (vl : Scope)
    (h : t.token_type ∈ valueTokens) :
    generate_expression [t] vl = (generateValueToken t vl).map (fun v => (v, 1)) := by
  have hni : exists_inline [t] = false := by
    cases ht : t.token_type <;> simp [valueTokens, ht] at h <;>
      simp [exists_inline, operatorTokenTypes, endTokens, ht]
  simp [generate_expression, hni]

/-- C1: the spec's end-to-end scenario.  On the token stream of
`fn add ( int a , int b ) { int c = a + b }` the builder does not produce
the claimed `Function`: `generate_code_block` starts from a fresh, empty
`variable_lst` and the parameters `a`, `b` are never added to it, so
parsing the initializer `a + b` aborts with the undefined-variable panic
for `a`. -/
theorem C1_add_scenario_undefined_parameter :
    generate_function addStream 10 = .error (.undefinedVariable ("a")) := rfl

/-- C9: `pop_scope` does not guard the outermost scope.  A fresh `VarLst`
(resp. `DeclaredObjects`) holds exactly one scope; popping it leaves zero
scopes, after which every lookup is `none` (resp. `contains` is false) and
any `insert`/`push` hits the `last_mut().unwrap()` panic (modelled as
`none`). -/
theorem C9_pop_scope_unguarded :
    VarLst.new.vars.length = 1 ∧
    (VarLst.new.pop_scope).vars = [] ∧
    (∀ x : Text, (VarLst.new.pop_scope).get x = none) ∧
    (∀ (x : Text) (t : DataType), (VarLst.new.pop_scope).insert x t = none) ∧
    (DeclaredObjects.new : DeclaredObjects Text).objects.length = 1 ∧
    ((DeclaredObjects.new : DeclaredObjects Text).pop_scope).objects = [] ∧
    (∀ o : Text, ((DeclaredObjects.new : DeclaredObjects Text).pop_scope).contains o = false) ∧
    (∀ o : Text, ((DeclaredObjects.new : DeclaredObjects Text).pop_scope).push o = none) :=
  ⟨rfl, rfl, fun _ => rfl, fun _ _ => rfl, rfl, rfl, fun _ => rfl, fun _ => rfl⟩

/-- C8: scope shadowing.  From any variable stack with at least one scope,
declaring `x : I64`, pushing a scope and declaring `x : F64` makes lookup
of `x` return `F64`; popping the scope makes it return `I64` again —
lookup scans innermost to outermost and the first match wins. -/
theorem C8_scope_shadowing (v : VarLst) (x : Text) (h : v.vars ≠ []) :
    ∃ v1 v2, v.insert x .I64 = some v1 ∧
      v1.push_scope.insert x .F64 = some v2 ∧
      v2.get x = some .F64 ∧
      v2.pop_scope.get x = some .I64 := by
  match v, h with
  | ⟨s :: rest⟩, _ =>
    refine ⟨⟨hmInsert s x .I64 :: rest⟩,
      ⟨hmInsert [] x .F64 :: hmInsert s x .I64 :: rest⟩, rfl, rfl, ?_, ?_⟩
    · simp [VarLst.get, varLstGet, hmGet_hmInsert]
    · simp [VarLst.pop_scope, VarLst.get, varLstGet, hmGet_hmInsert]

/-- Witness for C8 at the fresh stack and the name `x`. -/
theorem C8_scope_shadowing_witness :
    ∃ v1 v2, VarLst.new.insert ("x") .I64 = some v1 ∧
      v1.push_scope.insert ("x") .F64 = some v2 ∧
      v2.get ("x") = some .F64 ∧
      v2.pop_scope.get ("x") = some .I64 :=
  C8_scope_shadowing VarLst.new ("x") (by simp [VarLst.new])

/-- C10: re-declaring a name in the innermost scope is not an error: both
inserts succeed, the new binding replaces the old one in that same scope,
and lookup returns the most recent type.  The second conjunct shows the
parser-side behavior: a block declaring `x` twice builds normally and the
later initializer `x + x` resolves `x` to the replacing type `F64`. -/
theorem C10_redeclaration_replaces :
    (∀ (v : VarLst) (x : Text) (t1 t2 : DataType), v.vars ≠ [] →
       ∃ v1 v2, v.insert x t1 = some v1 ∧ v1.insert x t2 = some v2 ∧
         v2.get x = some t2 ∧ v2.vars.length = v.vars.length) ∧
    generate_code_block redeclBlockStream 20 = .ok (⟨redeclStatements⟩, 18) := by
  constructor
  · intro v x t1 t2 h
    match v, h with
    | ⟨s :: rest⟩, _ =>
      refine ⟨⟨hmInsert s x t1 :: rest⟩, ⟨hmInsert (hmInsert s x t1) x t2 :: rest⟩,
        rfl, rfl, ?_, rfl⟩
      simp [VarLst.get, varLstGet, hmGet_hmInsert]
  · rfl

/-- Witness for C10's quantified part at the fresh stack. -/
theorem C10_redeclaration_replaces_witness :
    ∃ v1 v2, VarLst.new.insert ("y") .I64 = some v1 ∧
      v1.insert ("y") .F64 = some v2 ∧
      v2.get ("y") = some .F64 ∧ v2.vars.length = VarLst.new.vars.length :=
  C10_redeclaration_replaces.1 VarLst.new ("y") .I64 .F64 (by simp [VarLst.new])

/-- C5: the inferred result type of an operation.  Comparison operators
yield `Bool` unconditionally; otherwise a `F64` operand forces both
operands numeric (assertion failure otherwise) with result `F64`;
otherwise the operand types must be structurally equal (assertion failure
otherwise) and the result is that common type. -/
theorem C5_operation_result_type (op : OperationType) (t1 t2 : DataType) :
    (op.is_comparison = true → gen_return_t op t1 t2 = .ok .Bool) ∧
    (op.is_comparison = false → (t1 = .F64 ∨ t2 = .F64) →
       ((t1.is_numeric = true ∧ t2.is_numeric = true) → gen_return_t op t1 t2 = .ok .F64) ∧
       (¬(t1.is_numeric = true ∧ t2.is_numeric = true) →
          gen_return_t op t1 t2 = .error .assertFail)) ∧
    (op.is_comparison = false → t1 ≠ .F64 → t2 ≠ .F64 →
       (t1 = t2 → gen_return_t op t1 t2 = .ok t1) ∧
       (t1 ≠ t2 → gen_return_t op t1 t2 = .error .assertFail)) := by
  refine ⟨?_, ?_, ?_⟩
  · intro h; simp [gen_return_t, h]
  · intro h hf
    constructor
    · rintro ⟨h1, h2⟩; simp [gen_return_t, h, hf, h1, h2]
    · intro hn
      by_cases h1 : t1.is_numeric = true
      · have h2 : t2.is_numeric = false := by
          cases h2 : t2.is_numeric
          · rfl
          · exact absurd ⟨h1, h2⟩ hn
        simp [gen_return_t, h, hf, h1, h2]
      · have h1f : t1.is_numeric = false := by
          cases h1f : t1.is_numeric
          · rfl
          · exact absurd h1f h1
        simp [gen_return_t, h, hf, h1f]
  · intro h hf1 hf2
    constructor
    · intro he
      subst he
      simp [gen_return_t, h, hf1]
    · intro hne; simp [gen_return_t, h, hf1, hf2, hne]

/-- Witness for C5 covering each branch at concrete operators and types. -/
theorem C5_operation_result_type_witness :
    gen_return_t .Eq .I64 .U64 = .ok .Bool ∧
    gen_return_t .Add .F64 .I64 = .ok .F64 ∧
    gen_return_t .Add .F64 .String = .error .assertFail ∧
    gen_return_t .Add .I64 .I64 = .ok .I64 ∧
    gen_return_t .Add .I64 .U64 = .error .assertFail :=
  ⟨(C5_operation_result_type .Eq .I64 .U64).1 rfl,
   ((C5_operation_result_type .Add .F64 .I64).2.1 rfl (Or.inl rfl)).1 ⟨rfl, rfl⟩,
   ((C5_operation_result_type .Add .F64 .String).2.1 rfl (Or.inl rfl)).2 (by decide),
   ((C5_operation_result_type .Add .I64 .I64).2.2 rfl (by decide) (by decide)).1 rfl,
   ((C5_operation_result_type .Add .I64 .U64).2.2 rfl (by decide) (by decide)).2 (by decide)⟩

/-- C2: statement-start handling in the block loop.  The second conjunct
shows the one shape the loop does reject fatally: a data-type token not
followed by `name =` panics ("This probably shouldn't happen").  But the
first conjunct shows the claim's general statement fails: a statement
starting with any token outside {newline, close-brace, data-type} (here a
bare variable name) falls into the loop's silent `_ => {}` arm, which
advances nothing — the loop never terminates (out-of-fuel for every fuel)
instead of raising the claimed fatal error. -/
theorem C2_statement_start_behavior :
    (∀ fuel, generate_code_block bareNameBlockStream fuel = .error .outOfFuel) ∧
    generate_code_block badDeclBlockStream 10 = .error .badStatement := by
  constructor
  · intro fuel
    have hgo : ∀ f, generate_code_block_go f bareNameBlockStream [] [] 1
        = .error .outOfFuel := by
      intro f
      induction f with
      | zero => rfl
      | succ n ih =>
        show generate_code_block_go n bareNameBlockStream [] [] 1 = .error .outOfFuel
        exact ih
    have h1 : generate_code_block bareNameBlockStream fuel
        = (generate_code_block_go fuel bareNameBlockStream [] [] 1).map
            (fun p => (⟨p.1⟩, p.2)) := rfl
    rw [h1, hgo fuel]
    rfl
  · rfl

/-- `Except` bind on a success. -/
theorem except_bind_ok {ε α β : Type} (a : α) (f : α → Except ε β) :
    (Except.ok a >>= f : Except ε β) = f a := rfl

/-- `Except` bind on a failure. -/
theorem except_bind_error {ε α β : Type} (e : ε) (f : α → Except ε β) :
    ((Except.error e : Except ε α) >>= f) = Except.error e := rfl

/-- Whenever the block statement loop returns successfully, the returned
index holds a close-curly-brace token: the loop exits via the
`CloseCurlyBrace => break` arm without advancing past the brace. -/
theorem code_block_go_stops_at_close (fuel : Nat) :
    ∀ (s : List Token) (block : List AstNode) (vl : Scope) (i : Nat)
      (b : List AstNode) (n : Nat),
      generate_code_block_go fuel s block vl i = .ok (b, n) →
      ∃ t, s[n]? = some t ∧ t.token_type = TokenType.CloseCurlyBrace := by
  induction fuel with
  | zero =>
    intro s block vl i b n h
    exact absurd h (by simp [generate_code_block_go])
  | succ f ih =>
    intro s block vl i b n h
    rw [generate_code_block_go] at h
    split at h
    · exact absurd h (by simp)
    · rename_i t hsome
      split at h
      · exact ih _ _ _ _ _ _ h
      · split at h
        · exact absurd h (by simp)
        · rename_i t1 h1some
          split at h
          · split at h
            · exact absurd h (by simp)
            · rename_i t2 h2some
              split at h
              · cases hdt : DataType.new t.value with
                | error e => rw [hdt, except_bind_error] at h; exact absurd h (by simp)
                | ok vt =>
                  rw [hdt, except_bind_ok] at h
                  dsimp only at h
                  cases hge : generate_expression (List.drop (i + 3) s)
                      (hmInsert vl t1.value vt) with
                  | error e => rw [hge, except_bind_error] at h; exact absurd h (by simp)
                  | ok p =>
                    rw [hge, except_bind_ok] at h
                    exact ih _ _ _ _ _ _ h
              · exact absurd h (by simp)
          · exact absurd h (by simp)
      · rename_i httype
        simp only [Except.ok.injEq, Prod.mk.injEq] at h
        obtain ⟨rfl, rfl⟩ := h
        exact ⟨t, hsome, httype⟩
      · exact ih _ _ _ _ _ _ h

/-- C7 counterexample: on the well-formed block `{ }` (followed by one
more token) the second component is `1`, the index of the closing brace
itself — not `2`, the index of the token immediately after it, as the
claim states. -/
theorem C7_returned_index_counterexample :
    generate_code_block emptyBlockStream 5 = .ok (⟨[]⟩, 1) ∧
    emptyBlockStream[1]? = some ⟨TokenType.CloseCurlyBrace, ("\x7d")⟩ ∧
    emptyBlockStream[2]? = some ⟨TokenType.NewLine, ("\n")⟩ ∧
    (1 : Nat) ≠ 2 :=
  ⟨rfl, rfl, rfl, by decide⟩

/-- C7 amended: whenever `generate_code_block` succeeds, its second
component is the index of the block's closing curly brace itself (the
number of tokens consumed excluding the brace), relative to the start of
the input span: the token at the returned index is a close-curly-brace. -/
theorem C7_block_count_points_at_close (s : List Token) (fuel : Nat)
    (b : CodeBlock) (n : Nat)
    (h : generate_code_block s fuel = .ok (b, n)) :
    ∃ t, s[n]? = some t ∧ t.token_type = TokenType.CloseCurlyBrace := by
  rw [generate_code_block] at h
  split at h
  · exact absurd h (by simp)
  · split at h
    · cases hg : generate_code_block_go fuel s [] [] 1 with
      | error e => rw [hg] at h; exact absurd h (by simp [Except.map])
      | ok p =>
        rw [hg] at h
        simp only [Except.map, Except.ok.injEq, Prod.mk.injEq] at h
        obtain ⟨-, rfl⟩ := h
        exact code_block_go_stops_at_close fuel s [] [] 1 p.1 p.2
          (by rw [hg])
    · exact absurd h (by simp)

/-- Witness for C7's amended statement on the block `{ }`. -/
theorem C7_block_count_points_at_close_witness :
    ∃ t, emptyBlockStream2[1]? = some t ∧
      t.token_type = TokenType.CloseCurlyBrace :=
  C7_block_count_points_at_close emptyBlockStream2 5 ⟨[]⟩ 1 rfl

/-- If no token of the span parses as an operator, the scan never updates
its accumulator. -/
theorem findSplitGo_no_op (ts : List Token) :
    ∀ i a p, (∀ u ∈ ts, ∃ e, OperationType.new u = .error e) →
      findSplitGo ts i a p = (a, p) := by
  induction ts with
  | nil => intro i a p _; rfl
  | cons t rest ih =>
    intro i a p h
    obtain ⟨e, he⟩ := h t (by simp)
    simp only [findSplitGo, he]
    exact ih (i + 1) a p (fun u hu => h u (by simp [hu]))

/-- C6 counterexample: the multi-token span `+ 2` contains an
arithmetic-operator token (at index 0, and `OperationType::new` accepts
it), yet the builder fails with the fatal "no operation found" error
instead of constructing an Operation — refuting the claimed
"if and only if the span contains no operator token". -/
theorem C6_operator_present_still_fails :
    extract_operation_h spanOpFirst [] = .error .noOperationFound ∧
    spanOpFirst.length = 2 ∧
    spanOpFirst[0]? = some ⟨TokenType.ArithmeticOperator, ("+")⟩ ∧
    OperationType.new ⟨TokenType.ArithmeticOperator, ("+")⟩ = .ok .Add :=
  ⟨rfl, rfl, rfl, rfl⟩

/-- C6 amended: on a span of length other than one, the builder fails
with the fatal "no operation found" error exactly when the priority scan
leaves the split index at 0 — which happens both when no token of the
span parses as an operator (second conjunct) and when the first
occurrence of the strictly highest-priority operator sits at index 0 — so
the presence of an operator token does not by itself guarantee an
Operation is constructed. -/
theorem C6_no_operation_found_amended (ts : List Token) (vl : Scope)
    (h1 : ts.length ≠ 1) :
    ((findSplit ts).1 = 0 → extract_operation_h ts vl = .error .noOperationFound) ∧
    ((∀ u ∈ ts, ∃ e, OperationType.new u = .error e) →
      extract_operation_h ts vl = .error .noOperationFound) := by
  have hmain : (findSplit ts).1 = 0 →
      extract_operation_h ts vl = .error .noOperationFound := by
    intro h0
    rw [extract_operation_h, extract_operation_h_go]
    rw [if_neg h1]
    rcases hfs : findSplit ts with ⟨a, c⟩
    rw [hfs] at h0
    simp only at h0
    subst h0
    simp
  refine ⟨hmain, fun hno => hmain ?_⟩
  rw [findSplit, findSplitGo_no_op ts 0 0 0 hno]

/-- Witness for C6's amended statement: the operator-free two-token span
`1 2` fails with the "no operation found" error. -/
theorem C6_no_operation_found_amended_witness :
    extract_operation_h spanNoOp [] = .error .noOperationFound :=
  (C6_no_operation_found_amended spanNoOp [] (by decide)).1 (by decide)

/-- The scan's accumulator priority never decreases. -/
theorem findSplitGo_acc_le (ts : List Token) :
    ∀ i a p, p ≤ (findSplitGo ts i a p).2 := by
  induction ts with
  | nil => intro i a p; exact le_refl p
  | cons t rest ih =>
    intro i a p
    cases hop : OperationType.new t with
    | ok op =>
      simp only [findSplitGo, hop]
      split
      · rename_i hgt
        exact le_trans (le_of_lt hgt) (ih (i + 1) i op.get_priority)
      · exact ih (i + 1) a p
    | error e =>
      simp only [findSplitGo, hop]
      exact ih (i + 1) a p

/-- Every token's priority is bounded by the scan's final priority. -/
theorem findSplitGo_prio_le (ts : List Token) :
    ∀ (i a p j : Nat) (u : Token), ts[j]? = some u →
      tokPrio u ≤ (findSplitGo ts i a p).2 := by
  induction ts with
  | nil =>
    intro i a p j u h
    rw [List.getElem?_nil] at h
    exact absurd h (by simp)
  | cons t rest ih =>
    intro i a p j u h
    cases j with
    | zero =>
      simp only [List.getElem?_cons_zero, Option.some.injEq] at h
      subst h
      cases hop : OperationType.new t with
      | ok op =>
        simp only [findSplitGo, hop, tokPrio]
        split
        · exact findSplitGo_acc_le rest (i + 1) i op.get_priority
        · rename_i hle
          push_neg at hle
          exact le_trans hle (findSplitGo_acc_le rest (i + 1) a p)
      | error e =>
        simp only [findSplitGo, hop, tokPrio]
        exact Nat.zero_le _
    | succ j =>
      simp only [List.getElem?_cons_succ] at h
      cases hop : OperationType.new t with
      | ok op =>
        simp only [findSplitGo, hop]
        split
        · exact ih (i + 1) i op.get_priority j u h
        · exact ih (i + 1) a p j u h
      | error e =>
        simp only [findSplitGo, hop]
        exact ih (i + 1) a p j u h

/-- If the scan's final priority equals the accumulator it started with,
nothing was updated: the result is the initial accumulator pair. -/
theorem findSplitGo_fixed (ts : List Token) :
    ∀ i a p, (findSplitGo ts i a p).2 = p → findSplitGo ts i a p = (a, p) := by
  induction ts with
  | nil => intro i a p _; rfl
  | cons t rest ih =>
    intro i a p h
    cases hop : OperationType.new t with
    | ok op =>
      simp only [findSplitGo, hop] at h ⊢
      by_cases hgt : op.get_priority > p
      · rw [if_pos hgt] at h
        have hle : op.get_priority ≤ p :=
          h ▸ findSplitGo_acc_le rest (i + 1) i op.get_priority
        exact absurd hgt (by omega)
      · rw [if_neg hgt] at h ⊢
        exact ih (i + 1) a p h
    | error e =>
      simp only [findSplitGo, hop] at h ⊢
      exact ih (i + 1) a p h

/-- When the scan raised its priority above the initial accumulator, the
returned index names the first occurrence of the final (maximal)
priority: the token there has exactly that priority and all earlier
tokens have strictly smaller priority. -/
theorem findSplitGo_found (ts : List Token) :
    ∀ i a p, p < (findSplitGo ts i a p).2 →
      ∃ k u, ts[k]? = some u ∧ (findSplitGo ts i a p).1 = i + k ∧
        tokPrio u = (findSplitGo ts i a p).2 ∧
        ∀ j w, j < k → ts[j]? = some w → tokPrio w < (findSplitGo ts i a p).2 := by
  induction ts with
  | nil => intro i a p h; exact absurd h (by simp [findSplitGo])
  | cons t rest ih =>
    intro i a p h
    cases hop : OperationType.new t with
    | ok op =>
      simp only [findSplitGo, hop] at h ⊢
      by_cases hgt : op.get_priority > p
      · rw [if_pos hgt] at h ⊢
        by_cases heq2 : (findSplitGo rest (i + 1) i op.get_priority).2 = op.get_priority
        · have hfix := findSplitGo_fixed rest (i + 1) i op.get_priority heq2
          rw [hfix]
          refine ⟨0, t, by simp, by simp, by simp [tokPrio, hop], ?_⟩
          intro j w hj _
          omega
        · have hlt : op.get_priority < (findSplitGo rest (i + 1) i op.get_priority).2 :=
            lt_of_le_of_ne (findSplitGo_acc_le rest (i + 1) i op.get_priority) (Ne.symm heq2)
          obtain ⟨k, u, hk, hidx, hpr, hbound⟩ := ih (i + 1) i op.get_priority hlt
          refine ⟨k + 1, u, by simpa using hk, by omega, hpr, ?_⟩
          intro j w hj hw
          cases j with
          | zero =>
            simp only [List.getElem?_cons_zero, Option.some.injEq] at hw
            subst hw
            have hw2 : tokPrio t = op.get_priority := by simp [tokPrio, hop]
            omega
          | succ j =>
            simp only [List.getElem?_cons_succ] at hw
            exact hbound j w (by omega) hw
      · rw [if_neg hgt] at h ⊢
        obtain ⟨k, u, hk, hidx, hpr, hbound⟩ := ih (i + 1) a p h
        refine ⟨k + 1, u, by simpa using hk, by omega, hpr, ?_⟩
        intro j w hj hw
        cases j with
        | zero =>
          simp only [List.getElem?_cons_zero, Option.some.injEq] at hw
          subst hw
          have hw2 : tokPrio t = op.get_priority := by simp [tokPrio, hop]
          omega
        | succ j =>
          simp only [List.getElem?_cons_succ] at hw
          exact hbound j w (by omega) hw
    | error e =>
      simp only [findSplitGo, hop] at h ⊢
      obtain ⟨k, u, hk, hidx, hpr, hbound⟩ := ih (i + 1) a p h
      refine ⟨k + 1, u, by simpa using hk, by omega, hpr, ?_⟩
      intro j w hj hw
      cases j with
      | zero =>
        simp only [List.getElem?_cons_zero, Option.some.injEq] at hw
        subst hw
        have hw2 : tokPrio t = 0 := by simp [tokPrio, hop]
        omega
      | succ j =>
        simp only [List.getElem?_cons_succ] at hw
        exact hbound j w (by omega) hw

/-- C3: the operator scan chooses the first occurrence of the strictly
highest-priority operator token — no token in the span has a larger
priority than the chosen one (first conjunct), and whenever any operator
was found, the chosen index holds a token of exactly the final priority
with all earlier tokens strictly lower (ties keep the earliest; the
strict `>` comparison never lets an equal-or-lower priority replace the
choice).  The third conjunct is the claim's concrete instance: the span
`2 + 3 * 4` builds `Operation(Operation(2, Add, 3), Mult, 4)` with
result types `I64`, not the conventional-precedence tree. -/
theorem C3_highest_priority_split :
    (∀ (ts : List Token) (j : Nat) (u : Token), ts[j]? = some u →
       tokPrio u ≤ (findSplit ts).2) ∧
    (∀ ts : List Token, 0 < (findSplit ts).2 →
       ∃ u, ts[(findSplit ts).1]? = some u ∧ tokPrio u = (findSplit ts).2 ∧
         ∀ (j : Nat) (w : Token), j < (findSplit ts).1 → ts[j]? = some w →
           tokPrio w < (findSplit ts).2) ∧
    extract_operation_h span234 [] = .ok tree234 := by
  refine ⟨?_, ?_, rfl⟩
  · intro ts j u h
    exact findSplitGo_prio_le ts 0 0 0 j u h
  · intro ts h
    simp only [findSplit] at h ⊢
    obtain ⟨k, u, hk, hidx, hpr, hbound⟩ := findSplitGo_found ts 0 0 0 h
    rw [hidx, Nat.zero_add]
    exact ⟨u, hk, hpr, fun j w hj hw => hbound j w (by omega) hw⟩

/-- Witness for C3 on the span `2 + 3 * 4`: its `+` token's priority is
bounded by the scan's result, and the scan's chosen index satisfies the
first-occurrence-of-maximum property. -/
theorem C3_highest_priority_split_witness :
    tokPrio ⟨TokenType.ArithmeticOperator, ("+")⟩ ≤ (findSplit span234).2 ∧
    (∃ u, span234[(findSplit span234).1]? = some u ∧
      tokPrio u = (findSplit span234).2 ∧
      ∀ (j : Nat) (w : Token), j < (findSplit span234).1 → span234[j]? = some w →
        tokPrio w < (findSplit span234).2) :=
  ⟨C3_highest_priority_split.1 span234 1 ⟨TokenType.ArithmeticOperator, ("+")⟩ rfl,
   C3_highest_priority_split.2.1 span234 (by decide)⟩

/-- `d` bracket pairs are `2 * d` characters. -/
theorem bracketChars_length (d : Nat) : (bracketChars d).length = 2 * d := by
  induction d with
  | zero => rfl
  | succ n ih => simp [bracketChars, ih]; omega

/-- Splitting at the first open bracket of `a ++ '[' :: b` yields
`(a, b)` when `a` is bracket-free. -/
theorem splitOnceLB_append (a b : List Char) (ha : '[' ∉ a) :
    splitOnceLB (a ++ '[' :: b) = some (a, b) := by
  induction a with
  | nil => simp [splitOnceLB]
  | cons c rest ih =>
    have hc : c ≠ '[' := by
      intro h
      exact ha (by simp [h])
    have hrest : '[' ∉ rest := fun h => ha (by simp [h])
    simp [splitOnceLB, hc, ih hrest]

/-- On a bare base keyword, `DataType::new` needs a single step: any
positive fuel yields the keyword's scalar descriptor. -/
theorem dataTypeNewGo_keyword (f : Nat) (hf : 0 < f) (k : List Char) (ty : DataType)
    (hk : (k, ty) ∈ baseTypePairs) : dataTypeNewGo f k = .ok ty := by
  match f, hf with
  | f + 1, _ =>
    simp only [baseTypePairs, List.mem_cons, List.mem_singleton, Prod.mk.injEq,
      List.not_mem_nil, or_false] at hk
    rcases hk with ⟨rfl, rfl⟩ | ⟨rfl, rfl⟩ | ⟨rfl, rfl⟩ | ⟨rfl, rfl⟩ |
      ⟨rfl, rfl⟩ | ⟨rfl, rfl⟩ | ⟨rfl, rfl⟩ <;> rfl

/-- No base keyword contains a bracket character. -/
theorem baseTypePairs_no_bracket (k : List Char) (ty : DataType)
    (hk : (k, ty) ∈ baseTypePairs) : '[' ∉ k := by
  simp only [baseTypePairs, List.mem_cons, List.mem_singleton, Prod.mk.injEq,
    List.not_mem_nil, or_false] at hk
  rcases hk with ⟨rfl, rfl⟩ | ⟨rfl, rfl⟩ | ⟨rfl, rfl⟩ | ⟨rfl, rfl⟩ |
    ⟨rfl, rfl⟩ | ⟨rfl, rfl⟩ | ⟨rfl, rfl⟩ <;> decide

/-- C4: type parsing.  For every base keyword and every bracket depth
`d ≥ 0`, parsing the keyword followed by `d` adjacent bracket pairs
yields the keyword's scalar descriptor wrapped in exactly `d` levels of
`Vec` (`Sequence`); and any text that is neither a base keyword nor
contains a bracket fails with the unknown-type fatal error. -/
theorem C4_type_descriptor_parsing :
    (∀ (k : List Char) (ty : DataType), (k, ty) ∈ baseTypePairs →
       ∀ d, dataTypeNew (k ++ bracketChars d) = .ok (wrapVec ty d)) ∧
    (∀ dt : List Char, dt ∉ baseTypePairs.map Prod.fst → '[' ∉ dt →
       dataTypeNew dt = .error (.noDataTypeFound (String.mk dt))) := by
  constructor
  · intro k ty hk d
    cases d with
    | zero =>
      rw [bracketChars, List.append_nil, dataTypeNew]
      exact dataTypeNewGo_keyword (k.length + 1) (Nat.succ_pos _) k ty hk
    | succ d =>
      have hkb : '[' ∉ k := baseTypePairs_no_bracket k ty hk
      have hbmem : '[' ∈ k ++ bracketChars (d + 1) := by simp [bracketChars]
      have hne : ∀ kw : List Char, '[' ∉ kw → k ++ bracketChars (d + 1) ≠ kw := by
        intro kw hkw heq
        exact hkw (heq ▸ hbmem)
      rw [dataTypeNew, dataTypeNewGo]
      rw [if_neg (hne _ (by decide)), if_neg (hne _ (by decide)),
          if_neg (hne _ (by decide)), if_neg (hne _ (by decide)),
          if_neg (hne _ (by decide)), if_neg (hne _ (by decide)),
          if_neg (hne _ (by decide)), if_pos hbmem]
      have hsplit : splitOnceLB (k ++ bracketChars (d + 1))
          = some (k, ']' :: bracketChars d) := by
        have hshape : k ++ bracketChars (d + 1) = k ++ '[' :: ']' :: bracketChars d := by
          simp [bracketChars]
        rw [hshape]
        exact splitOnceLB_append k (']' :: bracketChars d) hkb
      rw [hsplit]
      dsimp only
      have hlen : 0 < (k ++ bracketChars (d + 1)).length := by
        simp [bracketChars]
      rw [dataTypeNewGo_keyword _ hlen k ty hk, except_bind_ok]
      have hn : (']' :: bracketChars d).length / 2 + 1 = d + 1 := by
        simp [List.length_cons, bracketChars_length]
        omega
      rw [hn]
      rfl
  · intro dt hnk hnb
    simp only [baseTypePairs, List.map_cons, List.map_nil, List.mem_cons,
      List.mem_singleton, List.not_mem_nil, or_false, not_or] at hnk
    obtain ⟨h1, h2, h3, h4, h5, h6, h7⟩ := hnk
    rw [dataTypeNew, dataTypeNewGo]
    rw [if_neg h1, if_neg h2, if_neg h3, if_neg h4, if_neg h5, if_neg h6,
        if_neg h7, if_neg hnb]

/-- Witness for C4: `int[][]` parses to `Vec (Vec I64)`, and the
bracket-free non-keyword `quux` fails with the unknown-type error. -/
theorem C4_type_descriptor_parsing_witness :
    dataTypeNew ("int".data ++ bracketChars 2) = .ok (wrapVec .I64 2) ∧
    dataTypeNew ("quux".data) = .error (.noDataTypeFound (String.mk ("quux".data))) :=
  ⟨C4_type_descriptor_parsing.1 ("int".data) .I64 (by simp [baseTypePairs]) 2,
   C4_type_descriptor_parsing.2 ("quux".data) (by decide) (by decide)⟩

end Truffle
